import Mathlib

/-!
Verification of the recipient-list normalization logic of the
team-reminders repository (`src/app.py`).

The normalizer ingests a raw tabular input (header row + string rows) and
produces a canonical three-column recipient table, resolving which raw
column supplies the name, which supplies the phone number, and which (if
any) supplies the send flag, together with the flag column's polarity.

The shallow embedding below transcribes the two copies of this logic in
the source: the default-file load path (`app.py` lines 46-158) and the
upload path (`app.py` lines 306-398).  Machine-level concerns (the polars
dataframe library, CSV quoting, the Streamlit UI) are modelled at the
level the spec fixes them: a `RawTable` is an ordered list of column
names plus ordered rows of string cells, and the polars
`rename`/`with_columns`/`drop`/`select` pipeline on the success path is
modelled as the equivalent projection of the bound columns.  A rename
that would produce duplicate column names raises in polars and is caught
by the enclosing `try`/`except`; it is modelled by the
`ResolutionError.duplicateColumn` branch.
-/

namespace TeamReminders

/-- A raw table: the header (ordered column names, as they appeared in the
input) and the rows, each row a list of raw string cells aligned with the
header.  Cell lookup by column name uses the first occurrence of the
name, matching the spec's "treated as unique for matching purposes". -/
structure RawTable where
  columns : List String
  rows : List (List String)
deriving Repr, DecidableEq

/-- Canonical output record: exactly three fields. -/
structure RecipientRecord where
  name : String
  phoneNumber : String
  sendFlag : Bool
deriving Repr, DecidableEq

/-- `name_cols = ["Name", "Tenant", "Contact"]` (`app.py` line 49). -/
def name_cols : List String := ["Name", "Tenant", "Contact"]

/-- `phone_cols = ["PhoneNumber", "Phone", "Mobile"]` (`app.py` line 50). -/
def phone_cols : List String := ["PhoneNumber", "Phone", "Mobile"]

/-- Python's `str.lower()`, modelled as character-wise ASCII lowercasing
over the string's character list (all the names and values the source
compares against are ASCII).  This is `String.toLower` unfolded to a
kernel-reducible form. -/
def strLower (s : String) : String := ⟨s.data.map Char.toLower⟩

/-- `send_cols_map` (`app.py` lines 52-58): lowercased flag-column names
mapped to their interpretation (`true` = truthy source values mean send). -/
def send_cols_map (s : String) : Option Bool :=
  if s = "sendflag" then some true
  else if s = "send?" then some true
  else if s = "active" then some true
  else if s = "paid" then some false
  else if s = "false" then some false
  else none

/-- `any(c.lower() == col_lower for c in name_cols)` (`app.py` line 70). -/
def matchesName (col : String) : Bool :=
  name_cols.any (fun c => strLower c = strLower col)

/-- `any(c.lower() == col_lower for c in phone_cols)` (`app.py` lines 73-75). -/
def matchesPhone (col : String) : Bool :=
  phone_cols.any (fun c => strLower c = strLower col)

/-- The first mapping loop (`app.py` lines 67-77): scan the columns in
order; the first unclaimed name-synonym column is bound to `Name`, else
(elif) the first unclaimed phone-synonym column is bound to
`PhoneNumber`.  The state is (`mapped_cols` restricted to the name role,
`mapped_cols` restricted to the phone role); `found_name` is
`nameSrc.isSome` and `found_phone` is `phoneSrc.isSome`. -/
def mapNamePhoneLoop : List String → Option String × Option String →
    Option String × Option String
  | [], st => st
  | col :: rest, (nameSrc, phoneSrc) =>
    if nameSrc = none ∧ matchesName col then
      mapNamePhoneLoop rest (some col, phoneSrc)
    else if phoneSrc = none ∧ matchesPhone col then
      mapNamePhoneLoop rest (nameSrc, some col)
    else
      mapNamePhoneLoop rest (nameSrc, phoneSrc)

/-- Run the name/phone mapping loop from the initial state
(`mapped_cols = {}`, `found_name = found_phone = False`). -/
def mapNamePhone (cols : List String) : Option String × Option String :=
  mapNamePhoneLoop cols (none, none)

/-- The send-flag resolution loop (`app.py` lines 79-88): scan the
columns in order; skip columns already in `mapped_cols`; the first
remaining column whose lowercased name is a key of `send_cols_map` is the
flag source, with its polarity; `break` after the first match. -/
def findSendCol (nameSrc phoneSrc : Option String) :
    List String → Option (String × Bool)
  | [] => none
  | col :: rest =>
    if nameSrc ≠ some col ∧ phoneSrc ≠ some col then
      match send_cols_map (strLower col) with
      | some interp => some (col, interp)
      | none => findSendCol nameSrc phoneSrc rest
    else
      findSendCol nameSrc phoneSrc rest

/-- The truthy spellings recognized under POSITIVE polarity
(`app.py` line 104). -/
def truthyValues : List String := ["true", "1", "yes", "y"]

/-- The falsy spellings recognized under NEGATIVE polarity
(`app.py` line 117). -/
def falsyValues : List String := ["false", "0", "no", "n"]

/-- Flag-value interpretation (`app.py` lines 97-124): under POSITIVE
polarity (`send_flag_interpretation = True`) the flag is the membership
of the lowercased value in `truthyValues`; under NEGATIVE polarity it is
membership in `falsyValues`; everything else falls to the `otherwise`
branch, i.e. `False`. -/
def interpretSendFlag (interp : Bool) (v : String) : Bool :=
  if interp then truthyValues.contains (strLower v)
  else falsyValues.contains (strLower v)

/-- Cell lookup: the value of column `c` in `row`, using the first
occurrence of `c` in the header. -/
def getCell (cols : List String) (row : List String) (c : String) : String :=
  (row.get? (cols.findIdx (fun x => x = c))).getD ""

/-- The result of renaming the bound columns to their canonical names,
as `temp_df.rename(mapped_cols)` does (`app.py` line 92). -/
def renamedColumns (cols : List String) (nameSrc phoneSrc : String) :
    List String :=
  cols.map (fun c =>
    if c = nameSrc then "Name"
    else if c = phoneSrc then "PhoneNumber"
    else c)

/-- Boolean no-duplicates check on a list of strings. -/
def nodupB : List String → Bool
  | [] => true
  | c :: rest => !(rest.contains c) && nodupB rest

/-- Errors of the normalization block.  `missingColumns` carries the
unresolved required roles (`app.py` lines 149-158); `duplicateColumn`
models the polars exception raised when `rename` would produce duplicate
column names, which the enclosing `try`/`except` catches. -/
inductive ResolutionError
  | missingColumns (roles : List String)
  | duplicateColumn
deriving Repr, DecidableEq

/-- Successful normalization result: the canonical table, plus whether
the "no recognizable send flag column, defaulting SendFlag to True"
warning was emitted (`app.py` lines 132-139). -/
structure NormalizeOk where
  table : List RecipientRecord
  defaultFlagApplied : Bool
deriving Repr, DecidableEq

/-- Outcome of a normalization run: the canonical table, or an error.
(A sum type with decidable equality, playing the role of
`RecipientTable | ResolutionError` in the spec's contract.) -/
inductive NormResult
  | ok (res : NormalizeOk)
  | error (e : ResolutionError)
deriving Repr, DecidableEq

/-- The normalization block of the default-file load path
(`app.py` lines 46-158), as a function from the raw table to either the
canonical recipient table or a resolution error.

* name/phone resolution: `mapNamePhone` (lines 67-77);
* flag resolution: `findSendCol` (lines 79-88);
* if either required role is unbound, the missing-column branch
  (lines 149-158) reports every unresolved role, `Name` first;
* otherwise the `rename`/`with_columns`/`drop`/`select`/`cast` pipeline
  (lines 90-147) is the projection of each row onto the bound name and
  phone columns plus the computed `SendFlag`; the final
  `cast(recipients_schema, strict=False)` is the identity here since the
  projected columns already have the schema's types. -/
def normalizeDefaultPath (t : RawTable) : NormResult :=
  match mapNamePhone t.columns with
  | (some nc, some pc) =>
    if nodupB (renamedColumns t.columns nc pc) then
      match findSendCol (some nc) (some pc) t.columns with
      | some (sc, interp) =>
        .ok ⟨t.rows.map (fun row =>
          { name := getCell t.columns row nc
            phoneNumber := getCell t.columns row pc
            sendFlag := interpretSendFlag interp (getCell t.columns row sc) }),
          false⟩
      | none =>
        .ok ⟨t.rows.map (fun row =>
          { name := getCell t.columns row nc
            phoneNumber := getCell t.columns row pc
            sendFlag := true }),
          true⟩
    else
      .error .duplicateColumn
  | (nameSrc, phoneSrc) =>
    .error (.missingColumns
      ((if nameSrc = none then ["Name"] else []) ++
       (if phoneSrc = none then ["PhoneNumber"] else [])))

/-! ### The upload path (`app.py` lines 306-398)

The "Upload New CSV" branch repeats the column-mapping and
flag-interpretation logic verbatim.  It is transcribed here separately,
from its own lines, so that the two copies can be compared. -/

/-- `name_cols` as re-declared in the upload path (`app.py` line 307). -/
def name_cols_upload : List String := ["Name", "Tenant", "Contact"]

/-- `phone_cols` as re-declared in the upload path (`app.py` line 308). -/
def phone_cols_upload : List String := ["PhoneNumber", "Phone", "Mobile"]

/-- `send_cols_map` as re-declared in the upload path
(`app.py` lines 309-315). -/
def send_cols_map_upload (s : String) : Option Bool :=
  if s = "sendflag" then some true
  else if s = "send?" then some true
  else if s = "active" then some true
  else if s = "paid" then some false
  else if s = "false" then some false
  else none

/-- Name synonym match in the upload path (`app.py` lines 324-326). -/
def matchesNameUpload (col : String) : Bool :=
  name_cols_upload.any (fun c => strLower c = strLower col)

/-- Phone synonym match in the upload path (`app.py` lines 329-331). -/
def matchesPhoneUpload (col : String) : Bool :=
  phone_cols_upload.any (fun c => strLower c = strLower col)

/-- The name/phone mapping loop of the upload path
(`app.py` lines 322-333). -/
def mapNamePhoneLoopUpload : List String → Option String × Option String →
    Option String × Option String
  | [], st => st
  | col :: rest, (nameSrc, phoneSrc) =>
    if nameSrc = none ∧ matchesNameUpload col then
      mapNamePhoneLoopUpload rest (some col, phoneSrc)
    else if phoneSrc = none ∧ matchesPhoneUpload col then
      mapNamePhoneLoopUpload rest (nameSrc, some col)
    else
      mapNamePhoneLoopUpload rest (nameSrc, phoneSrc)

/-- The flag-column resolution loop of the upload path
(`app.py` lines 335-341). -/
def findSendColUpload (nameSrc phoneSrc : Option String) :
    List String → Option (String × Bool)
  | [] => none
  | col :: rest =>
    if nameSrc ≠ some col ∧ phoneSrc ≠ some col then
      match send_cols_map_upload (strLower col) with
      | some interp => some (col, interp)
      | none => findSendColUpload nameSrc phoneSrc rest
    else
      findSendColUpload nameSrc phoneSrc rest

/-- Flag-value interpretation in the upload path (`app.py` lines 348-369):
the same `when`/`then`/`otherwise` pair over
`["true", "1", "yes", "y"]` and `["false", "0", "no", "n"]`. -/
def interpretSendFlagUpload (interp : Bool) (v : String) : Bool :=
  if interp then (["true", "1", "yes", "y"] : List String).contains (strLower v)
  else (["false", "0", "no", "n"] : List String).contains (strLower v)

/-- The normalization block of the upload path (`app.py` lines 306-398):
same structure as the default-file path — resolution loops, missing-column
branch (`app.py` lines 390-398, `Name` reported first), and the
`rename`/`with_columns`/`drop`/`select`/`cast` pipeline
(`app.py` lines 344-388). -/
def normalizeUploadPath (t : RawTable) : NormResult :=
  match mapNamePhoneLoopUpload t.columns (none, none) with
  | (some nc, some pc) =>
    if nodupB (renamedColumns t.columns nc pc) then
      match findSendColUpload (some nc) (some pc) t.columns with
      | some (sc, interp) =>
        .ok ⟨t.rows.map (fun row =>
          { name := getCell t.columns row nc
            phoneNumber := getCell t.columns row pc
            sendFlag := interpretSendFlagUpload interp (getCell t.columns row sc) }),
          false⟩
      | none =>
        .ok ⟨t.rows.map (fun row =>
          { name := getCell t.columns row nc
            phoneNumber := getCell t.columns row pc
            sendFlag := true }),
          true⟩
    else
      .error .duplicateColumn
  | (nameSrc, phoneSrc) =>
    .error (.missingColumns
      ((if nameSrc = none then ["Name"] else []) ++
       (if phoneSrc = none then ["PhoneNumber"] else [])))

/-! ### CSV round trip -/

/-- Serialization of a canonical recipient table to a raw table, as
`write_csv` produces it (`app.py` lines 469-478): header exactly
`Name,PhoneNumber,SendFlag`, and each row the two strings verbatim plus
the boolean rendered as polars renders booleans in CSV, lowercase
`true`/`false`. -/
def serializeRecipients (recs : List RecipientRecord) : RawTable :=
  ⟨["Name", "PhoneNumber", "SendFlag"],
   recs.map (fun r =>
     [r.name, r.phoneNumber, if r.sendFlag then "true" else "false"])⟩

/-! ### Spec-side predicates

The following definitions restate the spec's wording of the resolution
rules ("the first column whose lowercased name is in `{...}`", "a fixed
lookup of recognized flag-column names"), to be compared against the
loops transcribed from the source. -/

/-- The spec's name-synonym set, lowercased. -/
def nameKeys : List String := ["name", "tenant", "contact"]

/-- The spec's phone-synonym set, lowercased. -/
def phoneKeys : List String := ["phonenumber", "phone", "mobile"]

/-- The spec's name-column criterion: the lowercased column name is in
`{"name", "tenant", "contact"}`. -/
def specNameMatch (c : String) : Bool := decide (strLower c ∈ nameKeys)

/-- The spec's phone-column criterion: the lowercased column name is in
`{"phonenumber", "phone", "mobile"}`. -/
def specPhoneMatch (c : String) : Bool := decide (strLower c ∈ phoneKeys)

/-- The spec's fixed polarity lookup: `"sendflag"`, `"send?"`, `"active"`
map to POSITIVE (`some true`); `"paid"`, `"false"` map to NEGATIVE
(`some false`); anything else is not a flag-column name. -/
def specPolarity (c : String) : Option Bool :=
  if strLower c = "sendflag" ∨ strLower c = "send?" ∨ strLower c = "active" then
    some true
  else if strLower c = "paid" ∨ strLower c = "false" then some false
  else none

/-! ### Result accessors -/

/-- Whether a normalization run succeeded. -/
def resultIsOk : NormResult → Bool
  | .ok _ => true
  | .error _ => false

/-- The rows of a successful normalization run (empty on error). -/
def resultRows : NormResult → List RecipientRecord
  | .ok res => res.table
  | .error _ => []

/-- Whether the run emitted the defaulting warning (false on error). -/
def resultDefaultApplied : NormResult → Bool
  | .ok res => res.defaultFlagApplied
  | .error _ => false

/-- The missing-role list of a `missingColumns` failure, if the run
failed that way. -/
def resultMissingRoles : NormResult → Option (List String)
  | .error (.missingColumns roles) => some roles
  | _ => none

/-! ### The stored recipients dataframe (`st.session_state.recipients_df`)

A minimal model of the polars dataframes assigned to
`st.session_state.recipients_df`, for the schema invariant: a dataframe
is a list of named, dtype-tagged columns of cells.  Value conversion is
modelled only as far as the claims need it: a cell already of the target
dtype is kept, `null` stays `null`, and other conversions are abstracted
as `null` (the `strict=False` failure mode). -/

/-- The two polars dtypes occurring in `recipients_schema`
(`app.py` lines 33-37): `pl.Utf8` and `pl.Boolean`. -/
inductive PDType
  | utf8
  | boolean
deriving Repr, DecidableEq

/-- A dataframe cell: null, a string, or a boolean. -/
inductive PCell
  | null
  | str (s : String)
  | bool (b : Bool)
deriving Repr, DecidableEq

/-- A named, dtype-tagged dataframe column. -/
structure PColumn where
  cname : String
  dtype : PDType
  cells : List PCell
deriving Repr, DecidableEq

/-- A dataframe: an ordered list of columns. -/
structure PDataFrame where
  pcols : List PColumn
deriving Repr, DecidableEq

/-- `recipients_schema` (`app.py` lines 33-37): `Name` and `PhoneNumber`
are `pl.Utf8`, `SendFlag` is `pl.Boolean`. -/
def recipientsSchema : List (String × PDType) :=
  [("Name", .utf8), ("PhoneNumber", .utf8), ("SendFlag", .boolean)]

/-- The (name, dtype) schema of a dataframe. -/
def schemaOf (df : PDataFrame) : List (String × PDType) :=
  df.pcols.map (fun c => (c.cname, c.dtype))

/-- `pl.DataFrame(schema=recipients_schema)` (`app.py` lines 158, 161,
166): the empty dataframe with the recipients schema. -/
def emptyRecipientsDF : PDataFrame :=
  ⟨recipientsSchema.map (fun nt => ⟨nt.1, nt.2, []⟩)⟩

/-- The dataframe built from a normalized table by
`select(selected_columns).cast(recipients_schema, strict=False)`
(`app.py` lines 145-147): the three canonical columns, already of the
schema's dtypes, so the cast is the identity. -/
def dfOfNormalized (recs : List RecipientRecord) : PDataFrame :=
  ⟨[⟨"Name", .utf8, recs.map (fun r => .str r.name)⟩,
    ⟨"PhoneNumber", .utf8, recs.map (fun r => .str r.phoneNumber)⟩,
    ⟨"SendFlag", .boolean, recs.map (fun r => .bool r.sendFlag)⟩]⟩

/-- Cast a cell to a target dtype, `strict=False` style: matching dtype
is kept, `null` stays `null`, anything else degrades to `null`. -/
def castCell (t : PDType) : PCell → PCell
  | .null => .null
  | .str s => if t = .utf8 then .str s else .null
  | .bool b => if t = .boolean then .bool b else .null

/-- `df.cast(recipients_schema, strict=False)` (`app.py` lines 443-447
and 464-467): every column whose name is in the schema mapping gets the
schema's dtype; columns not mentioned are untouched (polars `cast` with
a mapping does not add or drop columns). -/
def castSchemaDF (df : PDataFrame) : PDataFrame :=
  ⟨df.pcols.map (fun c =>
    match recipientsSchema.find? (fun nt => nt.1 = c.cname) with
    | some nt => ⟨c.cname, nt.2, c.cells.map (castCell nt.2)⟩
    | none => c)⟩

/-- The code paths that assign `st.session_state.recipients_df`:
successful normalization (`app.py` lines 145-147 and 386-388), the
default file being absent (line 161), the missing-column failure
(line 158), the parse/processing error (line 166), and a direct edit of
the table through the data editor followed by the safety-net recast
(lines 435-467). -/
inductive RecipientsAssign
  | loadSuccess (res : NormalizeOk)
  | loadDefaultFileMissing
  | loadMissingColumns
  | loadProcessingError
  | editTable (df : PDataFrame)

/-- The dataframe stored by each assignment path. -/
def assignedRecipients : RecipientsAssign → PDataFrame
  | .loadSuccess res => dfOfNormalized res.table
  | .loadDefaultFileMissing => emptyRecipientsDF
  | .loadMissingColumns => emptyRecipientsDF
  | .loadProcessingError => emptyRecipientsDF
  | .editTable df => castSchemaDF df

/-- Side condition on the edit path: the data editor hands back a table
with the same columns it was given (`st.data_editor` does not add or
remove columns), so the edited dataframe has exactly the three canonical
column names. -/
def editColumnsOk : RecipientsAssign → Prop
  | .editTable df => df.pcols.map PColumn.cname = ["Name", "PhoneNumber", "SendFlag"]
  | _ => True

/-! ### Helper lemmas -/

lemma matchesName_eq_spec : matchesName = specNameMatch := by
  funext c
  simp [matchesName, specNameMatch, name_cols, nameKeys,
    show strLower "Name" = "name" from rfl,
    show strLower "Tenant" = "tenant" from rfl,
    show strLower "Contact" = "contact" from rfl, eq_comm]

lemma matchesPhone_eq_spec : matchesPhone = specPhoneMatch := by
  funext c
  simp [matchesPhone, specPhoneMatch, phone_cols, phoneKeys,
    show strLower "PhoneNumber" = "phonenumber" from rfl,
    show strLower "Phone" = "phone" from rfl,
    show strLower "Mobile" = "mobile" from rfl, eq_comm]

lemma name_phone_disjoint (c : String) :
    matchesName c = true → matchesPhone c = false := by
  rw [matchesName_eq_spec, matchesPhone_eq_spec]
  simp only [specNameMatch, specPhoneMatch, nameKeys, phoneKeys, List.mem_cons,
    List.not_mem_nil, or_false, decide_eq_true_eq, decide_eq_false_iff_not]
  intro h
  rcases h with h | h | h <;> rw [h] <;> decide

lemma mapLoop_fst_some (cols : List String) (ps : Option String) (x : String) :
    (mapNamePhoneLoop cols (some x, ps)).1 = some x := by
  induction cols generalizing ps with
  | nil => rfl
  | cons col rest ih =>
    simp only [mapNamePhoneLoop]
    split
    · next h => exact absurd h.1 (by simp)
    · split
      · exact ih _
      · exact ih _

lemma mapLoop_snd_some (cols : List String) (ns : Option String) (y : String) :
    (mapNamePhoneLoop cols (ns, some y)).2 = some y := by
  induction cols generalizing ns with
  | nil => rfl
  | cons col rest ih =>
    simp only [mapNamePhoneLoop]
    split
    · exact ih _
    · split
      · next h => exact absurd h.1 (by simp)
      · exact ih _

lemma mapLoop_fst_char (cols : List String) (ps : Option String) :
    (mapNamePhoneLoop cols (none, ps)).1 = cols.find? specNameMatch := by
  induction cols generalizing ps with
  | nil => rfl
  | cons col rest ih =>
    simp only [mapNamePhoneLoop]
    by_cases hn : matchesName col
    · rw [if_pos ⟨trivial, hn⟩,
        List.find?_cons_of_pos _ (by rw [← matchesName_eq_spec]; exact hn)]
      simp [mapLoop_fst_some]
    · rw [if_neg (by simp [hn]),
        List.find?_cons_of_neg _ (by rw [← matchesName_eq_spec]; simpa using hn)]
      split
      · exact ih _
      · exact ih _

lemma mapLoop_snd_char (cols : List String) (ns : Option String) :
    (mapNamePhoneLoop cols (ns, none)).2 = cols.find? specPhoneMatch := by
  induction cols generalizing ns with
  | nil => rfl
  | cons col rest ih =>
    simp only [mapNamePhoneLoop]
    by_cases hn : (ns = none ∧ matchesName col)
    · rw [if_pos hn]
      have hp : specPhoneMatch col = false := by
        rw [← matchesPhone_eq_spec]; exact name_phone_disjoint col hn.2
      rw [List.find?_cons_of_neg _ (by simp [hp]), ← ih (some col)]
    · rw [if_neg hn]
      by_cases hp : matchesPhone col
      · rw [if_pos ⟨trivial, hp⟩,
          List.find?_cons_of_pos _ (by rw [← matchesPhone_eq_spec]; exact hp)]
        simp [mapLoop_snd_some]
      · rw [if_neg (by simp [hp]),
          List.find?_cons_of_neg _ (by rw [← matchesPhone_eq_spec]; simpa using hp)]
        exact ih _

lemma mapNamePhone_fst (cols : List String) :
    (mapNamePhone cols).1 = cols.find? specNameMatch := mapLoop_fst_char cols none

lemma mapNamePhone_snd (cols : List String) :
    (mapNamePhone cols).2 = cols.find? specPhoneMatch := mapLoop_snd_char cols none

lemma send_cols_map_eq_spec (c : String) :
    send_cols_map (strLower c) = specPolarity c := by
  unfold send_cols_map specPolarity
  split_ifs <;> simp_all

lemma findSendCol_char (ns ps : Option String) (cols : List String) :
    findSendCol ns ps cols =
      (cols.find? (fun c =>
        decide (ns ≠ some c ∧ ps ≠ some c) && (specPolarity c).isSome)).bind
        (fun c => (specPolarity c).map (fun b => (c, b))) := by
  induction cols with
  | nil => rfl
  | cons col rest ih =>
    simp only [findSendCol]
    by_cases h : (ns ≠ some col ∧ ps ≠ some col)
    · rw [if_pos h]
      cases hsp : specPolarity col with
      | some b =>
        rw [send_cols_map_eq_spec, hsp]
        rw [List.find?_cons_of_pos _ (by simp [h, hsp])]
        simp [hsp]
      | none =>
        rw [send_cols_map_eq_spec, hsp]
        rw [List.find?_cons_of_neg _ (by simp [hsp])]
        exact ih
    · rw [if_neg h]
      rw [List.find?_cons_of_neg _ (by simp [h])]
      exact ih

lemma interpret_spec (interp : Bool) (v : String) :
    interpretSendFlag interp v =
      (if interp then decide (strLower v ∈ (["true", "1", "yes", "y"] : List String))
       else decide (strLower v ∈ (["false", "0", "no", "n"] : List String))) := by
  cases interp <;> simp [interpretSendFlag, truthyValues, falsyValues]

lemma normalize_ok_flag (t : RawTable) (nc pc sc : String) (interp : Bool)
    (h1 : mapNamePhone t.columns = (some nc, some pc))
    (h2 : nodupB (renamedColumns t.columns nc pc) = true)
    (h3 : findSendCol (some nc) (some pc) t.columns = some (sc, interp)) :
    normalizeDefaultPath t = .ok ⟨t.rows.map (fun row =>
      { name := getCell t.columns row nc
        phoneNumber := getCell t.columns row pc
        sendFlag := interpretSendFlag interp (getCell t.columns row sc) }),
      false⟩ := by
  unfold normalizeDefaultPath
  rw [h1]
  simp only [h2, if_true, h3]

lemma normalize_ok_noflag (t : RawTable) (nc pc : String)
    (h1 : mapNamePhone t.columns = (some nc, some pc))
    (h2 : nodupB (renamedColumns t.columns nc pc) = true)
    (h3 : findSendCol (some nc) (some pc) t.columns = none) :
    normalizeDefaultPath t = .ok ⟨t.rows.map (fun row =>
      { name := getCell t.columns row nc
        phoneNumber := getCell t.columns row pc
        sendFlag := true }),
      true⟩ := by
  unfold normalizeDefaultPath
  rw [h1]
  simp only [h2, if_true, h3]

lemma normalize_missing (t : RawTable)
    (h : (mapNamePhone t.columns).1 = none ∨ (mapNamePhone t.columns).2 = none) :
    normalizeDefaultPath t = .error (.missingColumns
      ((if (mapNamePhone t.columns).1 = none then ["Name"] else []) ++
       (if (mapNamePhone t.columns).2 = none then ["PhoneNumber"] else []))) := by
  unfold normalizeDefaultPath
  rcases hp : mapNamePhone t.columns with ⟨ns, ps⟩
  rw [hp] at h
  cases ns with
  | none => cases ps <;> simp_all
  | some x =>
    cases ps with
    | none => simp_all
    | some y => simp_all

lemma mapLoopUpload_eq (cols : List String) (st : Option String × Option String) :
    mapNamePhoneLoopUpload cols st = mapNamePhoneLoop cols st := by
  induction cols generalizing st with
  | nil => rfl
  | cons col rest ih =>
    obtain ⟨ns, ps⟩ := st
    simp only [mapNamePhoneLoopUpload, mapNamePhoneLoop,
      show matchesNameUpload = matchesName from rfl,
      show matchesPhoneUpload = matchesPhone from rfl]
    split_ifs <;> apply ih

lemma findSendColUpload_eq (ns ps : Option String) (cols : List String) :
    findSendColUpload ns ps cols = findSendCol ns ps cols := by
  induction cols with
  | nil => rfl
  | cons col rest ih =>
    simp only [findSendColUpload, findSendCol,
      show send_cols_map_upload = send_cols_map from rfl]
    by_cases h : (ns ≠ some col ∧ ps ≠ some col)
    · rw [if_pos h, if_pos h]
      cases hm : send_cols_map (strLower col) with
      | some b => rfl
      | none => exact ih
    · rw [if_neg h, if_neg h]; exact ih

lemma normalizeUpload_eq (t : RawTable) :
    normalizeUploadPath t = normalizeDefaultPath t := by
  unfold normalizeUploadPath normalizeDefaultPath mapNamePhone
  rw [mapLoopUpload_eq]
  rcases h : mapNamePhoneLoop t.columns (none, none) with ⟨ns, ps⟩
  cases ns with
  | none => cases ps <;> rfl
  | some nc =>
    cases ps with
    | none => rfl
    | some pc =>
      simp only [findSendColUpload_eq,
        show interpretSendFlagUpload = interpretSendFlag from rfl]

/-! ### Claim theorems -/

/-- C1: name/phone column resolution scans the column names left-to-right
in a single pass, case-insensitively: the first column whose lowercased
name is in `{"name", "tenant", "contact"}` is bound to name, and
independently the first column whose lowercased name is in
`{"phonenumber", "phone", "mobile"}` is bound to phoneNumber; a column
bound to one role is never bound to the other. -/
theorem name_phone_resolution_first_match (cols : List String) :
    (mapNamePhone cols).1 = cols.find? specNameMatch ∧
    (mapNamePhone cols).2 = cols.find? specPhoneMatch ∧
    ((mapNamePhone cols).1.isSome = true →
      (mapNamePhone cols).1 ≠ (mapNamePhone cols).2) := by
  refine ⟨mapNamePhone_fst cols, mapNamePhone_snd cols, ?_⟩
  intro hs heq
  rw [mapNamePhone_fst] at hs heq
  rw [mapNamePhone_snd] at heq
  obtain ⟨c, hc⟩ := Option.isSome_iff_exists.mp hs
  have h1 : specNameMatch c = true := List.find?_some hc
  have h2 : specPhoneMatch c = true := List.find?_some (heq ▸ hc)
  rw [← matchesName_eq_spec] at h1
  rw [← matchesPhone_eq_spec] at h2
  rw [name_phone_disjoint c h1] at h2
  exact absurd h2 (by decide)

/-- Witness for C1 at the header `Tenant,PhoneNumber,Name`: the name
binding (`Tenant`, the first name synonym) differs from the phone
binding. -/
theorem name_phone_resolution_first_match_witness :
    (mapNamePhone ["Tenant", "PhoneNumber", "Name"]).1 ≠
      (mapNamePhone ["Tenant", "PhoneNumber", "Name"]).2 :=
  (name_phone_resolution_first_match ["Tenant", "PhoneNumber", "Name"]).2.2
    (by decide)

/-- C2: when a flag-source column was resolved, every row's sendFlag is
computed from the lowercased raw value of that column: under POSITIVE
polarity it is membership in `{"true", "1", "yes", "y"}`, under NEGATIVE
polarity membership in `{"false", "0", "no", "n"}`, and any other value
yields false (fail-closed, no default-true fallback). -/
theorem sendflag_value_semantics (t : RawTable) (nc pc sc : String)
    (interp : Bool) (res : NormalizeOk)
    (h1 : mapNamePhone t.columns = (some nc, some pc))
    (h2 : findSendCol (some nc) (some pc) t.columns = some (sc, interp))
    (h3 : normalizeDefaultPath t = .ok res) :
    res.table.map (fun r => r.sendFlag) =
      t.rows.map (fun row =>
        if interp then
          decide (strLower (getCell t.columns row sc) ∈
            (["true", "1", "yes", "y"] : List String))
        else
          decide (strLower (getCell t.columns row sc) ∈
            (["false", "0", "no", "n"] : List String))) := by
  cases hnd : nodupB (renamedColumns t.columns nc pc) with
  | false =>
    rw [normalizeDefaultPath, h1] at h3
    simp only [hnd, if_false] at h3
    cases h3
  | true =>
    rw [normalize_ok_flag t nc pc sc interp h1 hnd h2] at h3
    cases h3
    rw [List.map_map]
    refine List.map_congr_left fun row _ => ?_
    simpa using interpret_spec interp (getCell t.columns row sc)

/-- Witness for C2 at header `Tenant,Mobile,Paid` (NEGATIVE polarity)
with the single row `a,b,FALSE`: the output sendFlag is true. -/
theorem sendflag_value_semantics_witness :
    ({ table := [{ name := "a", phoneNumber := "b", sendFlag := true }],
       defaultFlagApplied := false } : NormalizeOk).table.map (fun r => r.sendFlag) =
      ([["a", "b", "FALSE"]] : List (List String)).map (fun row =>
        if (false : Bool) then
          decide (strLower (getCell ["Tenant", "Mobile", "Paid"] row "Paid") ∈
            (["true", "1", "yes", "y"] : List String))
        else
          decide (strLower (getCell ["Tenant", "Mobile", "Paid"] row "Paid") ∈
            (["false", "0", "no", "n"] : List String))) :=
  sendflag_value_semantics ⟨["Tenant", "Mobile", "Paid"], [["a", "b", "FALSE"]]⟩
    "Tenant" "Mobile" "Paid" false _ (by decide) (by decide) (by decide)

/-- C3: the flag-source column is the first column in original column
order, among columns not already bound to name or phoneNumber, whose
lowercased name is a key of the fixed polarity lookup, with that key's
polarity; scanning stops at the first match, and if no column matches
the flag source is absent. -/
theorem flag_source_resolution_first_unbound_key (cols : List String) :
    findSendCol (mapNamePhone cols).1 (mapNamePhone cols).2 cols =
      (cols.find? (fun c =>
        decide ((mapNamePhone cols).1 ≠ some c ∧ (mapNamePhone cols).2 ≠ some c) &&
          (specPolarity c).isSome)).bind
        (fun c => (specPolarity c).map (fun b => (c, b))) :=
  findSendCol_char (mapNamePhone cols).1 (mapNamePhone cols).2 cols

/-- C4: when the name and/or the phoneNumber role cannot be resolved,
normalization fails with a missing-column error that names exactly the
unresolved required roles, and no recipient table is produced. -/
theorem missing_required_roles_error (t : RawTable)
    (h : (mapNamePhone t.columns).1 = none ∨ (mapNamePhone t.columns).2 = none) :
    resultIsOk (normalizeDefaultPath t) = false ∧
    (resultMissingRoles (normalizeDefaultPath t)).isSome = true ∧
    (∀ roles, resultMissingRoles (normalizeDefaultPath t) = some roles →
      roles ≠ [] ∧
      ("Name" ∈ roles ↔ (mapNamePhone t.columns).1 = none) ∧
      ("PhoneNumber" ∈ roles ↔ (mapNamePhone t.columns).2 = none) ∧
      (∀ r ∈ roles, r = "Name" ∨ r = "PhoneNumber")) := by
  rw [normalize_missing t h]
  refine ⟨rfl, rfl, ?_⟩
  intro roles hr
  simp only [resultMissingRoles, Option.some.injEq] at hr
  subst hr
  by_cases hn : (mapNamePhone t.columns).1 = none <;>
    by_cases hp : (mapNamePhone t.columns).2 = none <;>
    simp_all

/-- Witness for C4 at the header `Foo,Bar`: normalization fails and
reports both `Name` and `PhoneNumber` as missing. -/
theorem missing_required_roles_error_witness :
    resultIsOk (normalizeDefaultPath ⟨["Foo", "Bar"], [["x", "y"]]⟩) = false ∧
    resultMissingRoles (normalizeDefaultPath ⟨["Foo", "Bar"], [["x", "y"]]⟩) =
      some ["Name", "PhoneNumber"] :=
  ⟨(missing_required_roles_error ⟨["Foo", "Bar"], [["x", "y"]]⟩ (by decide)).1,
   by decide⟩

/-- Counterexample to C5 as stated: at the header `Tenant,Name,Phone`
the name role resolves (to `Tenant`), the phone role resolves (to
`Phone`) and no flag-source column resolves, so the claim's precondition
holds — yet `rename({"Tenant": "Name", "Phone": "PhoneNumber"})`
(`app.py` line 92) would produce two `Name` columns, polars raises, and
the enclosing `except` (line 162) stores the empty table: the rename
precedes the defaulting warning of line 134, so no all-true rows are
produced and the warning is never emitted. -/
theorem absent_flag_rename_collision_counterexample :
    (mapNamePhone ["Tenant", "Name", "Phone"]).1 = some "Tenant" ∧
    (mapNamePhone ["Tenant", "Name", "Phone"]).2 = some "Phone" ∧
    findSendCol (some "Tenant") (some "Phone") ["Tenant", "Name", "Phone"] =
      none ∧
    normalizeDefaultPath ⟨["Tenant", "Name", "Phone"], [["a", "b", "c"]]⟩ =
      .error .duplicateColumn ∧
    resultDefaultApplied
      (normalizeDefaultPath ⟨["Tenant", "Name", "Phone"], [["a", "b", "c"]]⟩) =
      false ∧
    (resultRows
      (normalizeDefaultPath ⟨["Tenant", "Name", "Phone"], [["a", "b", "c"]]⟩)).map
        (fun r => r.sendFlag) ≠
      ([["a", "b", "c"]] : List (List String)).map (fun _ => true) := by
  decide

/-- C5 (amended): with resolvable name and phone columns, no resolvable
flag-source column, and no rename collision (renaming the bound columns
to their canonical names yields distinct column names, so the polars
rename succeeds), normalization succeeds, every output row's sendFlag
is true, and the caller is notified that the default was applied. -/
theorem absent_flag_column_defaults_true (t : RawTable) (nc pc : String)
    (h1 : mapNamePhone t.columns = (some nc, some pc))
    (h2 : nodupB (renamedColumns t.columns nc pc) = true)
    (h3 : findSendCol (some nc) (some pc) t.columns = none) :
    resultIsOk (normalizeDefaultPath t) = true ∧
    resultDefaultApplied (normalizeDefaultPath t) = true ∧
    (resultRows (normalizeDefaultPath t)).map (fun r => r.sendFlag) =
      t.rows.map (fun _ => true) := by
  rw [normalize_ok_noflag t nc pc h1 h2 h3]
  refine ⟨rfl, rfl, ?_⟩
  rw [resultRows, List.map_map]
  rfl

/-- Witness for C5 at the header exactly `Name,Phone`: both rows come
out with sendFlag true and the defaulting warning is emitted. -/
theorem absent_flag_column_defaults_true_witness :
    resultIsOk (normalizeDefaultPath
      ⟨["Name", "Phone"], [["Alice", "+15551230000"], ["Bob", ""]]⟩) = true ∧
    resultDefaultApplied (normalizeDefaultPath
      ⟨["Name", "Phone"], [["Alice", "+15551230000"], ["Bob", ""]]⟩) = true ∧
    (resultRows (normalizeDefaultPath
      ⟨["Name", "Phone"], [["Alice", "+15551230000"], ["Bob", ""]]⟩)).map
        (fun r => r.sendFlag) =
      ([["Alice", "+15551230000"], ["Bob", ""]] : List (List String)).map
        (fun _ => true) :=
  absent_flag_column_defaults_true
    ⟨["Name", "Phone"], [["Alice", "+15551230000"], ["Bob", ""]]⟩
    "Name" "Phone" (by decide) (by decide) (by decide)

/-- C6: on success the output rows carry name and phoneNumber copied
verbatim from the bound columns and output row order equals input row
order; and at header `Name,Phone,Active` with rows
`("Alice","+15551230000","TRUE")`, `("Bob","","no")` the output is
exactly the spec's example table (the flag-source column is not
retained: an output record has only the three canonical fields). -/
theorem projection_verbatim_order_preserved :
    (∀ (t : RawTable) (nc pc : String) (res : NormalizeOk),
      mapNamePhone t.columns = (some nc, some pc) →
      normalizeDefaultPath t = .ok res →
      res.table.length = t.rows.length ∧
      res.table.map (fun r => r.name) =
        t.rows.map (fun row => getCell t.columns row nc) ∧
      res.table.map (fun r => r.phoneNumber) =
        t.rows.map (fun row => getCell t.columns row pc)) ∧
    normalizeDefaultPath ⟨["Name", "Phone", "Active"],
      [["Alice", "+15551230000", "TRUE"], ["Bob", "", "no"]]⟩ =
      .ok ⟨[{ name := "Alice", phoneNumber := "+15551230000", sendFlag := true },
            { name := "Bob", phoneNumber := "", sendFlag := false }], false⟩ := by
  constructor
  · intro t nc pc res h1 h3
    cases hnd : nodupB (renamedColumns t.columns nc pc) with
    | false =>
      rw [normalizeDefaultPath, h1] at h3
      simp only [hnd, if_false] at h3
      cases h3
    | true =>
      cases hsc : findSendCol (some nc) (some pc) t.columns with
      | some scp =>
        obtain ⟨sc, interp⟩ := scp
        rw [normalize_ok_flag t nc pc sc interp h1 hnd hsc] at h3
        cases h3
        refine ⟨by simp, ?_, ?_⟩ <;> rw [List.map_map] <;> rfl
      | none =>
        rw [normalize_ok_noflag t nc pc h1 hnd hsc] at h3
        cases h3
        refine ⟨by simp, ?_, ?_⟩ <;> rw [List.map_map] <;> rfl
  · decide

/-- Witness for C6 at the spec's example table: the output names are the
input rows' `Name` cells, in input order. -/
theorem projection_verbatim_order_preserved_witness :
    ([{ name := "Alice", phoneNumber := "+15551230000", sendFlag := true },
      { name := "Bob", phoneNumber := "", sendFlag := false }] :
        List RecipientRecord).map (fun r => r.name) =
      ([["Alice", "+15551230000", "TRUE"], ["Bob", "", "no"]] :
        List (List String)).map
        (fun row => getCell ["Name", "Phone", "Active"] row "Name") :=
  (projection_verbatim_order_preserved.1
    ⟨["Name", "Phone", "Active"],
     [["Alice", "+15551230000", "TRUE"], ["Bob", "", "no"]]⟩
    "Name" "Phone"
    { table := [{ name := "Alice", phoneNumber := "+15551230000", sendFlag := true },
                { name := "Bob", phoneNumber := "", sendFlag := false }],
      defaultFlagApplied := false }
    (by decide) (by decide)).2.1

/-- C7: serializing any RecipientTable to CSV with header exactly
`Name,PhoneNumber,SendFlag` and re-normalizing that CSV yields an
identical RecipientTable (and no defaulting warning): normalize after
serialize is the identity on canonical tables. -/
theorem serialize_normalize_roundtrip (recs : List RecipientRecord) :
    normalizeDefaultPath (serializeRecipients recs) = .ok ⟨recs, false⟩ := by
  have h1 : mapNamePhone (serializeRecipients recs).columns =
      (some "Name", some "PhoneNumber") := rfl
  have h2 : nodupB (renamedColumns (serializeRecipients recs).columns
      "Name" "PhoneNumber") = true := rfl
  have h3 : findSendCol (some "Name") (some "PhoneNumber")
      (serializeRecipients recs).columns = some ("SendFlag", true) := rfl
  rw [normalize_ok_flag _ _ _ _ _ h1 h2 h3]
  have hrows : (serializeRecipients recs).rows =
      recs.map (fun r =>
        [r.name, r.phoneNumber, if r.sendFlag then "true" else "false"]) := rfl
  rw [hrows, List.map_map]
  congr 1
  congr 1
  conv_rhs => rw [← List.map_id recs]
  refine List.map_congr_left fun r _ => ?_
  cases r with
  | mk n p f => cases f <;> rfl

/-- C8: the duplicated normalization implementations — the default-file
load path and the upload path — compute the same function: the same
name/phone bindings, the same flag-source resolution, and the same
normalization outcome on every raw table. -/
theorem upload_path_equals_default_path (t : RawTable) :
    mapNamePhoneLoopUpload t.columns (none, none) = mapNamePhone t.columns ∧
    (∀ ns ps : Option String,
      findSendColUpload ns ps t.columns = findSendCol ns ps t.columns) ∧
    normalizeUploadPath t = normalizeDefaultPath t :=
  ⟨mapLoopUpload_eq t.columns (none, none),
   fun ns ps => findSendColUpload_eq ns ps t.columns,
   normalizeUpload_eq t⟩

/-- C9: on every code path that assigns the recipients table, the stored
dataframe has exactly the three columns `Name`, `PhoneNumber`, `SendFlag`
with dtypes string, string, boolean (for the edit path under the side
condition that the editor returned those three columns), and on the
successful-normalization path the `SendFlag` column contains no null. -/
theorem recipients_schema_invariant (e : RecipientsAssign)
    (he : editColumnsOk e) :
    schemaOf (assignedRecipients e) = recipientsSchema ∧
    (∀ res, e = .loadSuccess res →
      ∀ c ∈ (assignedRecipients e).pcols, c.cname = "SendFlag" →
        PCell.null ∉ c.cells) := by
  cases e with
  | loadSuccess res =>
    refine ⟨rfl, ?_⟩
    intro res2 heq c hc hn
    simp only [assignedRecipients, dfOfNormalized, List.mem_cons,
      List.not_mem_nil, or_false] at hc
    rcases hc with rfl | rfl | rfl <;> simp_all [List.mem_map]
  | loadDefaultFileMissing =>
    exact ⟨rfl, by intro res h; cases h⟩
  | loadMissingColumns =>
    exact ⟨rfl, by intro res h; cases h⟩
  | loadProcessingError =>
    exact ⟨rfl, by intro res h; cases h⟩
  | editTable df =>
    refine ⟨?_, by intro res h; cases h⟩
    simp only [editColumnsOk] at he
    obtain ⟨pcols⟩ := df
    rcases pcols with _ | ⟨a, _ | ⟨b, _ | ⟨c, _ | ⟨d, l⟩⟩⟩⟩ <;> simp_all
    obtain ⟨ha, hb, hc⟩ := he
    simp only [assignedRecipients, castSchemaDF, schemaOf, List.map_cons,
      List.map_nil, ha, hb, hc]
    rfl

/-- Witness for C9 on the edit path, with an edited dataframe whose
dtypes have drifted: the safety-net cast restores the canonical schema. -/
theorem recipients_schema_invariant_witness :
    schemaOf (assignedRecipients (RecipientsAssign.editTable
      ⟨[⟨"Name", PDType.boolean, [PCell.null]⟩,
        ⟨"PhoneNumber", PDType.utf8, [PCell.str "+15551230000"]⟩,
        ⟨"SendFlag", PDType.utf8, [PCell.bool true]⟩]⟩)) = recipientsSchema :=
  (recipients_schema_invariant (RecipientsAssign.editTable
      ⟨[⟨"Name", PDType.boolean, [PCell.null]⟩,
        ⟨"PhoneNumber", PDType.utf8, [PCell.str "+15551230000"]⟩,
        ⟨"SendFlag", PDType.utf8, [PCell.bool true]⟩]⟩) (by rfl)).1

/-- C10: for raw tables with resolvable name and phone columns,
normalization is deterministic: the same raw table always yields the
same result (the embedded normalizer is a pure function of its input). -/
theorem normalize_deterministic (t t2 : RawTable) (nc pc : String)
    (_h1 : mapNamePhone t.columns = (some nc, some pc))
    (heq : t = t2) :
    normalizeDefaultPath t = normalizeDefaultPath t2 := by rw [heq]

/-- Witness for C10 at the header `Name,Phone` with one row. -/
theorem normalize_deterministic_witness :
    normalizeDefaultPath ⟨["Name", "Phone"], [["Alice", "+15551230000"]]⟩ =
      normalizeDefaultPath ⟨["Name", "Phone"], [["Alice", "+15551230000"]]⟩ :=
  normalize_deterministic
    ⟨["Name", "Phone"], [["Alice", "+15551230000"]]⟩
    ⟨["Name", "Phone"], [["Alice", "+15551230000"]]⟩
    "Name" "Phone" (by decide) rfl

end TeamReminders
